import Mathlib

/-!
Verification development for the ps-mcp image-processing server.

This file gives a shallow embedding of the request-normalization, caching,
metrics, validation and bounded-concurrency layer of the repository
(src/utils/performance.py, src/utils/validation.py, src/tools/advanced.py,
src/tools/effects.py, src/config.py) and proves or refutes the properties
stated in the specification against that embedding.

Modelling conventions:
  * Python dicts keyed by strings become insertion-ordered association lists
    (`List (String × _)`); assignment updates in place or appends, matching
    CPython dict semantics.
  * Wall-clock timestamps (`time.time()`) become an explicit `Nat` parameter
    supplied by the caller of each operation.
  * Python floats become rationals (`ℚ`); Python ints become `ℤ`/`ℕ`.
  * An uncaught Python exception becomes `Except.error` carrying the message.
-/

/-! ## Configuration constants (src/config.py)

`ENABLE_CACHE` is assigned twice in src/config.py (False at line 27, True at
line 45); the later module-level assignment wins, so the effective value is
`true`.  `MAX_CONCURRENT_TASKS = 4`, `CACHE_SIZE_MB = 100`. -/

def MAX_CONCURRENT_TASKS : ℤ := 4

def ENABLE_CACHE : Bool := true

def CACHE_SIZE_MB : ℕ := 100

/-! ## PerformanceMonitor (src/utils/performance.py lines 24-71)

The `metrics` dict of the Python class becomes a structure with one field per
dict key.  `start_time` / `time.time()` are replaced by an explicit uptime
argument to `get_stats`. -/

structure PerformanceMonitor where
  total_operations : ℕ
  total_processing_time : ℚ
  memory_usage : List ℚ
  cache_hits : ℕ
  cache_misses : ℕ
  errors : ℕ
  deriving Repr, DecidableEq

def PerformanceMonitor.init : PerformanceMonitor :=
  { total_operations := 0
    total_processing_time := 0
    memory_usage := []
    cache_hits := 0
    cache_misses := 0
    errors := 0 }

/-- `PerformanceMonitor.record_operation` (lines 38-51).  The
`operation_name` argument is accepted and ignored, exactly as in the source
(no per-name breakdown is kept). -/
def PerformanceMonitor.record_operation (m : PerformanceMonitor)
    (operation_name : String) (processing_time : ℚ) (memory_used : ℚ)
    (cache_hit : Bool) (error : Bool) : PerformanceMonitor :=
  let _ := operation_name
  { total_operations := m.total_operations + 1
    total_processing_time := m.total_processing_time + processing_time
    memory_usage := m.memory_usage ++ [memory_used]
    cache_hits := if cache_hit then m.cache_hits + 1 else m.cache_hits
    cache_misses := if cache_hit then m.cache_misses else m.cache_misses + 1
    errors := if error then m.errors + 1 else m.errors }

/-- Result shape of `PerformanceMonitor.get_stats` (lines 53-71). -/
structure MonitorStats where
  uptime_seconds : ℚ
  total_operations : ℕ
  average_processing_time : ℚ
  average_memory_usage_mb : ℚ
  cache_hit_rate : ℚ
  error_rate : ℚ
  operations_per_second : ℚ
  deriving Repr, DecidableEq

/-- `PerformanceMonitor.get_stats` (lines 53-71): every division is guarded
by `max(divisor, 1)` in the source; the guard is kept verbatim. -/
def PerformanceMonitor.get_stats (m : PerformanceMonitor) (uptime : ℚ) :
    MonitorStats :=
  { uptime_seconds := uptime
    total_operations := m.total_operations
    average_processing_time :=
      m.total_processing_time / max (m.total_operations : ℚ) 1
    average_memory_usage_mb :=
      m.memory_usage.sum / max (m.memory_usage.length : ℚ) 1
    cache_hit_rate :=
      (m.cache_hits : ℚ) / max ((m.cache_hits : ℚ) + (m.cache_misses : ℚ)) 1
    error_rate := (m.errors : ℚ) / max (m.total_operations : ℚ) 1
    operations_per_second := (m.total_operations : ℚ) / max uptime 1 }

/-- The monitor after recording three operations with durations
[0.1, 0.2, 0.15], memory deltas [10, 15, 12], cache-hit flags
[false, true, false] and error flags [false, false, true]. -/
def recordedMonitor : PerformanceMonitor :=
  (((PerformanceMonitor.init).record_operation "test_op" (1/10) 10 false
        false).record_operation "test_op" (1/5) 15 true
      false).record_operation "test_op" (3/20) 12 false true

/-! ## ResourceManager (src/utils/performance.py lines 171-188)

`asyncio.Semaphore(max_tasks)` is modelled by an explicit counter
`sem_value`; `semaphore.acquire()` can only complete in a state where the
counter is positive (otherwise the coroutine stays suspended), and
`semaphore.release()` increments the counter.  Between the completed
`acquire` and the `active_tasks += 1` there is no await point, so the pair
is a single atomic step of the event loop. -/

structure ResourceManager where
  active_tasks : ℤ
  sem_value : ℤ
  max_tasks : ℤ
  deriving Repr, DecidableEq

def ResourceManager.init : ResourceManager :=
  { active_tasks := 0
    sem_value := MAX_CONCURRENT_TASKS
    max_tasks := MAX_CONCURRENT_TASKS }

/-- `ResourceManager.release_task_slot` (lines 184-188): both the counter
decrement and the semaphore release are guarded by `active_tasks > 0`. -/
def ResourceManager.release_task_slot (s : ResourceManager) : ResourceManager :=
  if 0 < s.active_tasks then
    { s with active_tasks := s.active_tasks - 1, sem_value := s.sem_value + 1 }
  else s

/-- One event-loop step of the admission controller: a completed
`acquire_task_slot` (lines 179-182, enabled only when the semaphore counter
is positive) or a `release_task_slot` call. -/
inductive RMStep : ResourceManager → ResourceManager → Prop
  | acquire (s : ResourceManager) (h : 0 < s.sem_value) :
      RMStep s { s with active_tasks := s.active_tasks + 1,
                        sem_value := s.sem_value - 1 }
  | release (s : ResourceManager) : RMStep s s.release_task_slot

/-- States reachable from a fresh `ResourceManager()` by any interleaving of
acquire and release calls. -/
inductive RMReachable : ResourceManager → Prop
  | init : RMReachable ResourceManager.init
  | step {s t : ResourceManager} : RMReachable s → RMStep s t → RMReachable t

/-! ## ImageCache (src/utils/performance.py lines 73-169)

The two Python dicts `cache` and `access_times` become insertion-ordered
association lists.  `alookup`, `aset` and `aerase` reproduce CPython dict
lookup, assignment (update in place, else append) and deletion. -/

def alookup {α : Type} (k : String) : List (String × α) → Option α
  | [] => none
  | (k', v) :: xs => if k' = k then some v else alookup k xs

def aset {α : Type} (k : String) (v : α) : List (String × α) → List (String × α)
  | [] => [(k, v)]
  | (k', v') :: xs => if k' = k then (k, v) :: xs else (k', v') :: aset k v xs

def aerase {α : Type} (k : String) (l : List (String × α)) : List (String × α) :=
  l.filter (fun p => p.1 ≠ k)

/-- Operation parameters: the `params: Dict[str, Any]` argument, as a list of
(key, JSON-serialized value) pairs in dict insertion order. -/
abbrev Params := List (String × String)

/-- Metadata of a PIL image, as used by `_estimate_image_size` (lines 90-94):
width, height and number of bands. -/
structure ImgMeta where
  width : ℕ
  height : ℕ
  channels : ℕ
  deriving Repr, DecidableEq

/-- A stored cache entry (lines 147-151): the result payload, the size
recorded for it, and the `timestamp` field.  -/
structure CacheEntry where
  result : String
  size : ℤ
  timestamp : ℕ
  deriving Repr, DecidableEq

structure ImageCache where
  max_size_bytes : ℤ
  cache : List (String × CacheEntry)
  access_times : List (String × ℕ)
  current_size : ℤ
  enabled : Bool
  deriving Repr, DecidableEq

/-- `ImageCache.__init__` (lines 76-81): capacity is `max_size_mb * 1024 *
1024` bytes and `enabled` comes from the `ENABLE_CACHE` configuration. -/
def ImageCache.init (max_size_mb : ℕ := CACHE_SIZE_MB) : ImageCache :=
  { max_size_bytes := (max_size_mb : ℤ) * 1024 * 1024
    cache := []
    access_times := []
    current_size := 0
    enabled := ENABLE_CACHE }

/-- Ordering used by `json.dumps(params, sort_keys=True)`: pairs compared by
key only. -/
def keyLE (a b : String × String) : Prop := a.1 ≤ b.1

instance : DecidableRel keyLE := fun a b => inferInstanceAs (Decidable (a.1 ≤ b.1))

instance : IsTotal (String × String) keyLE := ⟨fun a b => le_total a.1 b.1⟩

instance : IsTrans (String × String) keyLE := ⟨fun _ _ _ h h' => le_trans h h'⟩

/-- Serialization of the params dict performed by
`json.dumps(params, sort_keys=True)` (line 86): entries sorted by key, each
rendered `"key": value` and joined with `", "` inside braces.  Values stand
for their own JSON serialization. -/
def dumpsSorted (params : Params) : String :=
  "\x7b" ++ String.intercalate ", "
      ((List.insertionSort keyLE params).map
        (fun p => "\x22" ++ p.1 ++ "\x22: " ++ p.2)) ++ "\x7d"

/-- `ImageCache._get_cache_key` (lines 83-88): the key is the MD5 hex digest
of `f"{image_source}:{operation}:{params_str}"`.  MD5 is a fixed
deterministic function of its input string, so cache-key equality and
determinism properties are stated on the digested string itself; the digest
step is omitted from the embedding. -/
def ImageCache.get_cache_key (image_source : String) (operation : String)
    (params : Params) : String :=
  image_source ++ ":" ++ operation ++ ":" ++ dumpsSorted params

/-- `ImageCache._estimate_image_size` (lines 90-94). -/
def estimate_image_size (img : ImgMeta) : ℤ :=
  (img.width : ℤ) * (img.height : ℤ) * (img.channels : ℤ)

/-- Size recorded for a new entry (lines 136-140): the estimated image size
when a result image is supplied, otherwise the UTF-8 byte length of the
result string (`len(result.encode())`). -/
def itemSize (result : String) (result_image : Option ImgMeta) : ℤ :=
  match result_image with
  | some img => estimate_image_size img
  | none => (result.utf8ByteSize : ℤ)

/-- Eviction of one key inside the `_cleanup_cache` loop (lines 108-112):
if the key is present in `cache`, delete it from both dicts and subtract its
recorded size from `current_size`. -/
def ImageCache.evictKey (c : ImageCache) (k : String) : ImageCache :=
  match alookup k c.cache with
  | none => c
  | some e =>
    { c with cache := aerase k c.cache
             access_times := aerase k c.access_times
             current_size := c.current_size - e.size }

/-- The `for cache_key, _ in sorted_items` loop of `_cleanup_cache`
(lines 104-112), recursing over the pre-sorted key list with the early
`break` once `current_size + required_space <= max_size_bytes`. -/
def cleanupLoop (required_space : ℤ) : List String → ImageCache → ImageCache
  | [], c => c
  | k :: ks, c =>
    if c.current_size + required_space ≤ c.max_size_bytes then c
    else cleanupLoop required_space ks (c.evictKey k)

/-- Ordering of `sorted(self.access_times.items(), key=lambda x: x[1])`
(line 102): items compared by access timestamp. -/
def timeLE (a b : String × ℕ) : Prop := a.2 ≤ b.2

instance : DecidableRel timeLE := fun a b => inferInstanceAs (Decidable (a.2 ≤ b.2))

instance : IsTotal (String × ℕ) timeLE := ⟨fun a b => Nat.le_total a.2 b.2⟩

instance : IsTrans (String × ℕ) timeLE := ⟨fun _ _ _ h h' => le_trans h h'⟩

/-- The access-times dict sorted by timestamp (line 102:
`sorted(self.access_times.items(), key=lambda x: x[1])`). -/
def ImageCache.sortedAccess (c : ImageCache) : List (String × ℕ) :=
  List.insertionSort timeLE c.access_times

/-- Keys of the cache in least-recently-accessed-first order. -/
def ImageCache.lruKeys (c : ImageCache) : List String :=
  c.sortedAccess.map Prod.fst

/-- `ImageCache._cleanup_cache` (lines 96-112). -/
def ImageCache.cleanup_cache (c : ImageCache) (required_space : ℤ) : ImageCache :=
  if !c.enabled then c
  else cleanupLoop required_space c.lruKeys c

/-- `ImageCache.get` (lines 114-125): on a hit the access timestamp is
updated to `now` and the stored `result` is returned; the cache mapping
itself is not modified. -/
def ImageCache.get (c : ImageCache) (now : ℕ) (image_source : String)
    (operation : String) (params : Params) : Option String × ImageCache :=
  if !c.enabled then (none, c)
  else
    let cache_key := ImageCache.get_cache_key image_source operation params
    match alookup cache_key c.cache with
    | some e => (some e.result, { c with access_times := aset cache_key now c.access_times })
    | none => (none, c)

/-- `ImageCache.put` (lines 127-153): estimate the item size, run
`_cleanup_cache` when the insertion would exceed capacity, then store the
entry and add its size to `current_size`.  Note that when the key is already
present the old entry is overwritten without its recorded size being
subtracted. -/
def ImageCache.put (c : ImageCache) (now : ℕ) (image_source : String)
    (operation : String) (params : Params) (result : String)
    (result_image : Option ImgMeta := none) : ImageCache :=
  if !c.enabled then c
  else
    let cache_key := ImageCache.get_cache_key image_source operation params
    let item_size := itemSize result result_image
    let c1 := if c.max_size_bytes < c.current_size + item_size then
        c.cleanup_cache item_size
      else c
    { c1 with
      cache := aset cache_key ⟨result, item_size, now⟩ c1.cache
      access_times := aset cache_key now c1.access_times
      current_size := c1.current_size + item_size }

/-- `ImageCache.clear` (lines 155-159). -/
def ImageCache.clear (c : ImageCache) : ImageCache :=
  { c with cache := [], access_times := [], current_size := 0 }

/-- Sum of the sizes recorded in the stored entries. -/
def entrySizeSum (l : List (String × CacheEntry)) : ℤ :=
  (l.map (fun p => p.2.size)).sum

/-! ## Cache invariant -/

/-- Bookkeeping invariant of `ImageCache`: `current_size` equals the sum of
the recorded entry sizes, the cache keys are duplicate-free, and `cache` and
`access_times` hold exactly the same keys in the same order. -/
def CacheInv (c : ImageCache) : Prop :=
  entrySizeSum c.cache = c.current_size ∧
  (c.cache.map Prod.fst).Nodup ∧
  c.cache.map Prod.fst = c.access_times.map Prod.fst

/-- Folding the one-key eviction over a key list; used to state that
`_cleanup_cache` removes exactly a leading segment of the
least-recently-accessed-first key order. -/
def evictList (ks : List String) (c : ImageCache) : ImageCache :=
  ks.foldl ImageCache.evictKey c

/-- Cache states reachable from `ImageCache(max_size_mb)` by sequences of
`put` calls in which every inserted fingerprint is fresh (no overwrite) and
every item's estimated size is at most the capacity. -/
inductive ReachableFresh (max_size_mb : ℕ) : ImageCache → Prop
  | init : ReachableFresh max_size_mb (ImageCache.init max_size_mb)
  | put {c : ImageCache} (now : ℕ) (src op : String) (params : Params)
      (result : String) (img : Option ImgMeta) :
      ReachableFresh max_size_mb c →
      ImageCache.get_cache_key src op params ∉ c.cache.map Prod.fst →
      itemSize result img ≤ c.max_size_bytes →
      ReachableFresh max_size_mb (c.put now src op params result img)

/-! ## Fingerprint determinism -/

/-- Strict key comparison; used only to show sorting by key is unique on
duplicate-free key sets. -/
def keyLT (a b : String × String) : Prop := a.1 < b.1

instance : IsAntisymm (String × String) keyLT :=
  ⟨fun _ _ h h' => absurd h' (lt_asymm h)⟩

/-! ## Parameter validation (src/utils/validation.py lines 41-59)

`validate_numeric_range(value, min_val, max_val, param_name)` coerces the
value with `float(...)` and returns a *boolean*; it raises nothing.  A
`none` value stands for an argument on which `float()` raises (e.g. `None`
or a non-numeric string), which the `except` clause turns into `False`.
The `param_name` argument is accepted but never used by the function
body. -/

def validate_numeric_range (value : Option ℚ) (min_val max_val : ℚ)
    (param_name : Option String := none) : Bool :=
  let _ := param_name
  match value with
  | none => false
  | some num_value => decide (min_val ≤ num_value ∧ num_value ≤ max_val)

/-- Validation phase of `add_watermark` (src/tools/effects.py lines
644-661).  `Except.error e` models `raise ValidationError(e)` (caught at
the operation boundary, lines 617-624); `Except.ok ()` means execution
falls through to image processing.  The two `validate_numeric_range` calls
at lines 660-661 appear exactly as in the source: their boolean results are
bound and discarded, never checked. -/
def add_watermark_validation (image_source_valid : Bool)
    (has_watermark : Bool) (opacity scale : ℚ) : Except String Unit :=
  if !image_source_valid then Except.error "无效的图片源"
  else if !has_watermark then
    Except.error "必须提供watermark_text或watermark_image之一"
  else
    let _ := validate_numeric_range (some opacity) 0 1 (some "opacity")
    let _ := validate_numeric_range (some scale) (1/10) 2 (some "scale")
    Except.ok ()

/-- JSON envelope returned by an operation. -/
structure Envelope where
  success : Bool
  error : Option String
  deriving Repr, DecidableEq

/-- Outcome of `add_watermark`'s validation phase at the operation
boundary: `some env` is the `{"success": false, "error": "参数验证失败:
..."}` envelope produced by the `except ValidationError` handler (lines
617-624); `none` means no validation failure was reported and processing
proceeds. -/
def add_watermark_validation_envelope (image_source_valid : Bool)
    (has_watermark : Bool) (opacity scale : ℚ) : Option Envelope :=
  match add_watermark_validation image_source_valid has_watermark opacity scale with
  | Except.error e => some ⟨false, some ("参数验证失败: " ++ e)⟩
  | Except.ok _ => none

/-! ## batch_resize (src/tools/advanced.py lines 326-438)

Per-item work (`resize_single_image`, lines 366-383) loads and resizes one
image; it catches every exception and returns either the dict produced by
`ImageProcessor.output_image` (src/utils/image_processor.py lines 178-208,
always a dict) or the string `"ERROR: " + str(e)`.  The collection loop
(lines 389-403) calls `result.startswith("ERROR:")` on that value: on a
string this dispatches on the error marker, but on a dict it raises
`AttributeError`, which escapes to the outer `except Exception` handler
(lines 431-438). -/

/-- The dict returned by `ImageProcessor.output_image`. -/
structure OutputInfo where
  file_path : String
  file_size : ℕ
  format : String
  deriving Repr, DecidableEq

/-- Python value returned by the `resize_single_image` closure: the output
dict on success, or the string `"ERROR: " ++ msg` on a caught exception. -/
inductive ItemOutcome where
  | ok (info : OutputInfo)
  | err (msg : String)
  deriving Repr, DecidableEq

/-- One per-item result entry as built at lines 393-403. -/
structure BatchEntry where
  index : ℕ
  success : Bool
  error : Option String
  result : Option OutputInfo
  deriving Repr, DecidableEq

/-- The collection loop `for i, future in enumerate(futures)` (lines
389-403).  An `ItemOutcome.err s` arm models the string case: the value is
`"ERROR: " ++ s`, `startswith` matches and `result[7:]` is recorded.  An
`ItemOutcome.ok info` arm models the dict case, where `.startswith` raises
`AttributeError` and the loop (and the whole request body) aborts. -/
def collectResults : ℕ → List ItemOutcome → Except String (List BatchEntry)
  | _, [] => Except.ok []
  | i, ItemOutcome.err s :: rest =>
    match collectResults (i + 1) rest with
    | Except.ok es =>
      Except.ok (⟨i, false, some (("ERROR: " ++ s).drop 7), none⟩ :: es)
    | Except.error e => Except.error e
  | _, ItemOutcome.ok _ :: _ =>
    Except.error "AttributeError: dict object has no attribute startswith"

/-- Aggregate JSON envelope of `batch_resize`. -/
structure BatchEnvelope where
  success : Bool
  error : Option String
  results : List BatchEntry
  deriving Repr, DecidableEq

/-- `batch_resize` (lines 326-438), parameterized by the outcome of the
per-item closure for each source.  The second component counts executor
submissions (`executor.submit`, line 387).  An empty `image_sources` raises
`ValidationError` at line 340 before the executor block is reached, and the
handler at lines 423-430 turns it into a failure envelope.  The
`validate_numeric_range` calls on width/height (lines 349-350) discard
their boolean results and so never fail. -/
def batch_resize (image_sources : List String)
    (resize_single_image : String → ItemOutcome) : BatchEnvelope × ℕ :=
  if image_sources.isEmpty then
    (⟨false, some "参数验证失败: image_sources不能为空", []⟩, 0)
  else
    match collectResults 0 (image_sources.map resize_single_image) with
    | Except.ok entries => (⟨true, none, entries⟩, image_sources.length)
    | Except.error e =>
      (⟨false, some ("批量调整失败: " ++ e), []⟩, image_sources.length)

/-- Inductive invariant of the admission controller: the active count and
the semaphore value are nonnegative and sum to the configured ceiling. -/
theorem rm_invariant {s : ResourceManager} (h : RMReachable s) :
    s.active_tasks + s.sem_value = s.max_tasks ∧ 0 ≤ s.active_tasks ∧
      0 ≤ s.sem_value ∧ s.max_tasks = MAX_CONCURRENT_TASKS := by
  induction h with
  | init => refine ⟨by simp [ResourceManager.init], by simp [ResourceManager.init],
      by simp [ResourceManager.init, MAX_CONCURRENT_TASKS], rfl⟩
  | step _ hstep ih =>
    obtain ⟨hsum, hact, hsem, hmax⟩ := ih
    cases hstep with
    | acquire hpos =>
      refine ⟨by simpa using by linarith, by simp; linarith, by simp; linarith, hmax⟩
    | release =>
      unfold ResourceManager.release_task_slot
      split
      · exact ⟨by simp; linarith, by simp; linarith, by simp; linarith, hmax⟩
      · exact ⟨hsum, hact, hsem, hmax⟩

/-! ## Association-list lemmas -/

theorem alookup_eq_none {α : Type} {k : String} {l : List (String × α)}
    (h : k ∉ l.map Prod.fst) : alookup k l = none := by
  induction l with
  | nil => rfl
  | cons p xs ih =>
    simp only [List.map_cons, List.mem_cons, not_or] at h
    have hne : p.1 ≠ k := fun he => h.1 he.symm
    simp [alookup, hne, ih h.2]

theorem alookup_isSome_of_mem {α : Type} {k : String} {l : List (String × α)}
    (h : k ∈ l.map Prod.fst) : (alookup k l).isSome := by
  induction l with
  | nil => simp at h
  | cons p xs ih =>
    by_cases he : p.1 = k
    · simp [alookup, he]
    · simp only [List.map_cons, List.mem_cons] at h
      rcases h with h | h
      · exact absurd h.symm he
      · simp [alookup, he, ih h]

theorem aset_fresh {α : Type} {k : String} (v : α) {l : List (String × α)}
    (h : k ∉ l.map Prod.fst) : aset k v l = l ++ [(k, v)] := by
  induction l with
  | nil => rfl
  | cons p xs ih =>
    simp only [List.map_cons, List.mem_cons, not_or] at h
    have hne : p.1 ≠ k := fun he => h.1 he.symm
    simp [aset, hne, ih h.2]

theorem alookup_aset_self {α : Type} (k : String) (v : α) (l : List (String × α)) :
    alookup k (aset k v l) = some v := by
  induction l with
  | nil => simp [aset, alookup]
  | cons p xs ih =>
    by_cases he : p.1 = k
    · simp [aset, alookup, he]
    · simp [aset, alookup, he, ih]

theorem aerase_map_fst {α : Type} (k : String) (l : List (String × α)) :
    (aerase k l).map Prod.fst = (l.map Prod.fst).filter (fun k' => k' ≠ k) := by
  induction l with
  | nil => rfl
  | cons p xs ih =>
    by_cases he : p.1 = k
    · simpa [aerase, List.filter_cons, he] using ih
    · simpa [aerase, List.filter_cons, he] using ih

theorem aerase_of_not_mem {α : Type} {k : String} {l : List (String × α)}
    (h : k ∉ l.map Prod.fst) : aerase k l = l := by
  apply List.filter_eq_self.mpr
  intro a ha
  simp only [ne_eq, decide_eq_true_eq]
  intro he
  exact h (he ▸ List.mem_map_of_mem Prod.fst ha)

theorem entrySizeSum_cons (p : String × CacheEntry) (l : List (String × CacheEntry)) :
    entrySizeSum (p :: l) = p.2.size + entrySizeSum l := by
  simp [entrySizeSum]

theorem entrySizeSum_aerase {k : String} {l : List (String × CacheEntry)}
    {e : CacheEntry} (hnd : (l.map Prod.fst).Nodup) (hl : alookup k l = some e) :
    entrySizeSum (aerase k l) = entrySizeSum l - e.size := by
  induction l with
  | nil => simp [alookup] at hl
  | cons p xs ih =>
    simp only [List.map_cons, List.nodup_cons] at hnd
    by_cases he : p.1 = k
    · rw [show alookup k (p :: xs) = some p.2 by simp [alookup, he]] at hl
      have hpe : p.2 = e := by injection hl
      have hx : aerase k xs = xs := aerase_of_not_mem (he ▸ hnd.1)
      have hh : aerase k (p :: xs) = xs := by
        simp [aerase, List.filter_cons, he] at hx ⊢
        exact hx
      rw [hh, entrySizeSum_cons, hpe]
      ring
    · rw [show alookup k (p :: xs) = alookup k xs by simp [alookup, he]] at hl
      have hx := ih hnd.2 hl
      have hh : aerase k (p :: xs) = p :: aerase k xs := by
        simp [aerase, List.filter_cons, he]
      rw [hh, entrySizeSum_cons, entrySizeSum_cons, hx]
      ring

theorem evictKey_fields (c : ImageCache) (k : String) :
    (c.evictKey k).max_size_bytes = c.max_size_bytes ∧
      (c.evictKey k).enabled = c.enabled := by
  unfold ImageCache.evictKey
  cases alookup k c.cache <;> simp

theorem evictKey_inv {c : ImageCache} (h : CacheInv c) (k : String) :
    CacheInv (c.evictKey k) := by
  obtain ⟨hsum, hnd, hkeys⟩ := h
  unfold ImageCache.evictKey
  cases hl : alookup k c.cache with
  | none => exact ⟨hsum, hnd, hkeys⟩
  | some e =>
    dsimp only
    refine ⟨?_, ?_, ?_⟩
    · show entrySizeSum (aerase k c.cache) = c.current_size - e.size
      rw [entrySizeSum_aerase hnd hl, hsum]
    · show ((aerase k c.cache).map Prod.fst).Nodup
      rw [aerase_map_fst]
      exact hnd.filter _
    · show (aerase k c.cache).map Prod.fst = (aerase k c.access_times).map Prod.fst
      rw [aerase_map_fst, aerase_map_fst, hkeys]

theorem evictKey_keys_subset (c : ImageCache) (k k' : String)
    (h : k' ∈ (c.evictKey k).cache.map Prod.fst) :
    k' ∈ c.cache.map Prod.fst ∧ k' ≠ k := by
  unfold ImageCache.evictKey at h
  cases hl : alookup k c.cache with
  | none =>
    rw [hl] at h
    constructor
    · exact h
    · intro he
      subst he
      exact absurd (alookup_isSome_of_mem h) (by simp [hl])
  | some e =>
    rw [hl] at h
    simp only [aerase_map_fst, List.mem_filter, decide_eq_true_eq] at h
    exact ⟨h.1, by simpa using h.2⟩

/-! ## Cleanup-loop lemmas -/

theorem cleanupLoop_enabled (req : ℤ) : ∀ (ks : List String) (c : ImageCache),
    (cleanupLoop req ks c).enabled = c.enabled := by
  intro ks
  induction ks with
  | nil => intro c; rfl
  | cons k ks ih =>
    intro c
    unfold cleanupLoop
    split
    · rfl
    · rw [ih (c.evictKey k), (evictKey_fields c k).2]

theorem cleanupLoop_max (req : ℤ) : ∀ (ks : List String) (c : ImageCache),
    (cleanupLoop req ks c).max_size_bytes = c.max_size_bytes := by
  intro ks
  induction ks with
  | nil => intro c; rfl
  | cons k ks ih =>
    intro c
    unfold cleanupLoop
    split
    · rfl
    · rw [ih (c.evictKey k), (evictKey_fields c k).1]

/-- Main property of the eviction loop: the bookkeeping invariant is
preserved, and on exit either the requested space fits under the capacity or
every entry has been evicted. -/
theorem cleanupLoop_spec (req : ℤ) : ∀ (ks : List String) (c : ImageCache),
    CacheInv c → (∀ k, k ∈ c.cache.map Prod.fst → k ∈ ks) →
    CacheInv (cleanupLoop req ks c) ∧
      ((cleanupLoop req ks c).current_size + req ≤ c.max_size_bytes ∨
        (cleanupLoop req ks c).cache = []) ∧
      (∀ k, k ∈ (cleanupLoop req ks c).cache.map Prod.fst →
        k ∈ c.cache.map Prod.fst) := by
  intro ks
  induction ks with
  | nil =>
    intro c hInv hcov
    have : c.cache.map Prod.fst = [] := List.eq_nil_iff_forall_not_mem.mpr
      (fun k hk => by simpa using hcov k hk)
    have hnil : c.cache = [] := by
      cases hc : c.cache with
      | nil => rfl
      | cons p xs => rw [hc] at this; simp at this
    exact ⟨hInv, Or.inr hnil, fun k hk => hk⟩
  | cons k ks ih =>
    intro c hInv hcov
    unfold cleanupLoop
    split
    · exact ⟨hInv, Or.inl (by assumption), fun _ hk => hk⟩
    · have hInv' : CacheInv (c.evictKey k) := evictKey_inv hInv k
      have hcov' : ∀ k', k' ∈ (c.evictKey k).cache.map Prod.fst → k' ∈ ks := by
        intro k' hk'
        obtain ⟨hmem, hne⟩ := evictKey_keys_subset c k k' hk'
        cases hcov k' hmem with
        | head => exact absurd rfl hne
        | tail _ h => exact h
      obtain ⟨h1, h2, h3⟩ := ih (c.evictKey k) hInv' hcov'
      refine ⟨h1, ?_, fun k' hk' => (evictKey_keys_subset c k k' (h3 k' hk')).1⟩
      rw [(evictKey_fields c k).1] at h2
      exact h2

theorem cleanupLoop_evictList (req : ℤ) : ∀ (ks : List String) (c : ImageCache),
    ∃ m, cleanupLoop req ks c = evictList (ks.take m) c := by
  intro ks
  induction ks with
  | nil => exact fun c => ⟨0, rfl⟩
  | cons k ks ih =>
    intro c
    unfold cleanupLoop
    split
    · exact ⟨0, rfl⟩
    · obtain ⟨m, hm⟩ := ih (c.evictKey k)
      exact ⟨m + 1, hm⟩

/-! ## Put preservation -/

theorem lruKeys_cover {c : ImageCache} (hkeys : c.cache.map Prod.fst =
    c.access_times.map Prod.fst) :
    ∀ k, k ∈ c.cache.map Prod.fst → k ∈ c.lruKeys := by
  intro k hk
  rw [hkeys] at hk
  unfold ImageCache.lruKeys ImageCache.sortedAccess
  exact ((List.perm_insertionSort timeLE c.access_times).map Prod.fst).symm.subset hk

theorem cleanup_cache_spec {c : ImageCache} (req : ℤ) (hInv : CacheInv c)
    (hen : c.enabled = true) :
    CacheInv (c.cleanup_cache req) ∧
      ((c.cleanup_cache req).current_size + req ≤ c.max_size_bytes ∨
        (c.cleanup_cache req).cache = []) ∧
      (∀ k, k ∈ (c.cleanup_cache req).cache.map Prod.fst →
        k ∈ c.cache.map Prod.fst) ∧
      (c.cleanup_cache req).max_size_bytes = c.max_size_bytes ∧
      (c.cleanup_cache req).enabled = c.enabled := by
  unfold ImageCache.cleanup_cache
  rw [hen]
  simp only [Bool.not_true, Bool.false_eq_true, if_false]
  obtain ⟨h1, h2, h3⟩ :=
    cleanupLoop_spec req c.lruKeys c hInv (lruKeys_cover hInv.2.2)
  exact ⟨h1, h2, h3, cleanupLoop_max req c.lruKeys c,
    (cleanupLoop_enabled req c.lruKeys c).trans hen⟩

theorem entrySizeSum_append (l : List (String × CacheEntry)) (p : String × CacheEntry) :
    entrySizeSum (l ++ [p]) = entrySizeSum l + p.2.size := by
  simp [entrySizeSum]

/-- Inserting a fresh key (one not currently cached) extends both dicts and
adds exactly the new entry's size. -/
theorem insert_fresh_inv {c1 : ImageCache} (hInv1 : CacheInv c1) {key : String}
    (hfresh : key ∉ c1.cache.map Prod.fst) (e : CacheEntry) (now : ℕ) :
    CacheInv { c1 with cache := aset key e c1.cache,
                       access_times := aset key now c1.access_times,
                       current_size := c1.current_size + e.size } := by
  obtain ⟨hsum, hnd, hkeys⟩ := hInv1
  have hfresh' : key ∉ c1.access_times.map Prod.fst := hkeys ▸ hfresh
  refine ⟨?_, ?_, ?_⟩
  · show entrySizeSum (aset key e c1.cache) = c1.current_size + e.size
    rw [aset_fresh e hfresh, entrySizeSum_append, hsum]
  · show ((aset key e c1.cache).map Prod.fst).Nodup
    rw [aset_fresh e hfresh]
    simp only [List.map_append, List.map_cons, List.map_nil]
    exact List.Nodup.append hnd (List.nodup_singleton key)
      (by simpa using hfresh)
  · show (aset key e c1.cache).map Prod.fst = (aset key now c1.access_times).map Prod.fst
    rw [aset_fresh e hfresh, aset_fresh now hfresh']
    simp [hkeys]

/-- `put` with a fresh fingerprint whose estimated size fits within the
capacity preserves the bookkeeping invariant and the capacity bound. -/
theorem put_fresh_spec {c : ImageCache} (now : ℕ) (src op : String)
    (params : Params) (result : String) (img : Option ImgMeta)
    (hInv : CacheInv c) (hbound : c.current_size ≤ c.max_size_bytes)
    (hfresh : ImageCache.get_cache_key src op params ∉ c.cache.map Prod.fst)
    (hsize : itemSize result img ≤ c.max_size_bytes) :
    CacheInv (c.put now src op params result img) ∧
      (c.put now src op params result img).current_size ≤
        (c.put now src op params result img).max_size_bytes ∧
      (c.put now src op params result img).max_size_bytes = c.max_size_bytes := by
  by_cases hen : c.enabled = true
  case neg =>
    have hne : c.put now src op params result img = c := by
      unfold ImageCache.put
      simp [hen]
    rw [hne]
    exact ⟨hInv, hbound, rfl⟩
  case pos =>
    by_cases hb : c.max_size_bytes < c.current_size + itemSize result img
    case pos =>
      have hput : c.put now src op params result img =
          { c.cleanup_cache (itemSize result img) with
            cache := aset (ImageCache.get_cache_key src op params)
              ⟨result, itemSize result img, now⟩
              (c.cleanup_cache (itemSize result img)).cache
            access_times := aset (ImageCache.get_cache_key src op params) now
              (c.cleanup_cache (itemSize result img)).access_times
            current_size :=
              (c.cleanup_cache (itemSize result img)).current_size +
                itemSize result img } := by
        unfold ImageCache.put
        rw [hen]
        simp only [Bool.not_true, Bool.false_eq_true, if_false, if_pos hb, hen]
      obtain ⟨hInv1, hdisj, hsub, hmax1, hen1⟩ :=
        cleanup_cache_spec (itemSize result img) hInv hen
      have hfresh1 : ImageCache.get_cache_key src op params ∉
          (c.cleanup_cache (itemSize result img)).cache.map Prod.fst :=
        fun hk => hfresh (hsub _ hk)
      rw [hput]
      refine ⟨insert_fresh_inv hInv1 hfresh1 _ now, ?_, hmax1⟩
      show (c.cleanup_cache (itemSize result img)).current_size +
          itemSize result img ≤ (c.cleanup_cache (itemSize result img)).max_size_bytes
      rw [hmax1]
      cases hdisj with
      | inl h => exact h
      | inr h =>
        have : (c.cleanup_cache (itemSize result img)).current_size = 0 := by
          rw [← hInv1.1, h]
          rfl
        rw [this]
        simpa using hsize
    case neg =>
      have hput : c.put now src op params result img =
          { c with
            cache := aset (ImageCache.get_cache_key src op params)
              ⟨result, itemSize result img, now⟩ c.cache
            access_times := aset (ImageCache.get_cache_key src op params) now
              c.access_times
            current_size := c.current_size + itemSize result img } := by
        unfold ImageCache.put
        rw [hen]
        simp only [Bool.not_true, Bool.false_eq_true, if_false, if_neg hb, hen]
      rw [hput]
      refine ⟨insert_fresh_inv hInv hfresh _ now, ?_, rfl⟩
      show c.current_size + itemSize result img ≤ c.max_size_bytes
      exact le_of_not_lt hb

theorem reachableFresh_inv {max_size_mb : ℕ} {c : ImageCache}
    (h : ReachableFresh max_size_mb c) :
    CacheInv c ∧ c.current_size ≤ c.max_size_bytes := by
  induction h with
  | init =>
    refine ⟨⟨rfl, List.nodup_nil, rfl⟩, ?_⟩
    show (0 : ℤ) ≤ (max_size_mb : ℤ) * 1024 * 1024
    positivity
  | put now src op params result img _ hfresh hsize ih =>
    obtain ⟨h1, h2, _⟩ := put_fresh_spec now src op params result img
      ih.1 ih.2 hfresh hsize
    exact ⟨h1, h2⟩

theorem sorted_keyLT {l : List (String × String)} (hs : List.Sorted keyLE l)
    (hnd : (l.map Prod.fst).Nodup) : List.Sorted keyLT l := by
  have hne : l.Pairwise (fun a b : String × String => a.1 ≠ b.1) :=
    List.pairwise_map.mp hnd
  exact (hs.and hne).imp (fun h => lt_of_le_of_ne h.1 h.2)

/-- Sorting by key is a function of the key-value set alone when the keys
are duplicate-free: any two permutations of the params dict sort to the
same list. -/
theorem insertionSort_perm_eq {p₁ p₂ : Params} (hperm : p₁.Perm p₂)
    (hnd : (p₁.map Prod.fst).Nodup) :
    List.insertionSort keyLE p₁ = List.insertionSort keyLE p₂ := by
  have h₁ := List.perm_insertionSort keyLE p₁
  have h₂ := List.perm_insertionSort keyLE p₂
  have hnd₁ : ((List.insertionSort keyLE p₁).map Prod.fst).Nodup :=
    ((h₁.map Prod.fst).nodup_iff).mpr hnd
  have hnd₂ : ((List.insertionSort keyLE p₂).map Prod.fst).Nodup :=
    ((h₂.map Prod.fst).nodup_iff).mpr ((hperm.map Prod.fst).nodup_iff.mp hnd)
  exact List.eq_of_perm_of_sorted
    (h₁.trans (hperm.trans h₂.symm))
    (sorted_keyLT (List.sorted_insertionSort keyLE p₁) hnd₁)
    (sorted_keyLT (List.sorted_insertionSort keyLE p₂) hnd₂)

theorem get_cache_key_perm (src op : String) {p₁ p₂ : Params}
    (hperm : p₁.Perm p₂) (hnd : (p₁.map Prod.fst).Nodup) :
    ImageCache.get_cache_key src op p₁ = ImageCache.get_cache_key src op p₂ := by
  unfold ImageCache.get_cache_key dumpsSorted
  rw [insertionSort_perm_eq hperm hnd]

/-! ## Get/put interaction -/

/-- `get` never changes the stored entries: only `access_times` is touched
on a hit. -/
theorem cleanup_cache_enabled (c : ImageCache) (req : ℤ) :
    (c.cleanup_cache req).enabled = c.enabled := by
  unfold ImageCache.cleanup_cache
  split
  · rfl
  · exact cleanupLoop_enabled req c.lruKeys c

theorem get_cache_unchanged (c : ImageCache) (now : ℕ) (src op : String)
    (params : Params) : ((c.get now src op params).2).cache = c.cache := by
  unfold ImageCache.get
  split
  · rfl
  · dsimp only
    split <;> rfl

theorem put_get_same {c : ImageCache} (hen : c.enabled = true) (now now' : ℕ)
    (src op : String) (params : Params) (result : String) (img : Option ImgMeta) :
    ((c.put now src op params result img).get now' src op params).1 =
      some result := by
  have henp : (c.put now src op params result img).enabled = true := by
    unfold ImageCache.put
    rw [hen]
    simp only [Bool.not_true, Bool.false_eq_true, if_false]
    split
    · exact (cleanup_cache_enabled c _).trans hen
    · exact hen
  have hcache : (c.put now src op params result img).cache =
      aset (ImageCache.get_cache_key src op params)
        ⟨result, itemSize result img, now⟩
        (if c.max_size_bytes < c.current_size + itemSize result img then
          c.cleanup_cache (itemSize result img) else c).cache := by
    unfold ImageCache.put
    rw [hen]
    simp only [Bool.not_true, Bool.false_eq_true, if_false]
  unfold ImageCache.get
  rw [henp]
  simp only [Bool.not_true, Bool.false_eq_true, if_false]
  rw [hcache, alookup_aset_self]

/-! ## Claim theorems -/

/-- C1, counterexample: the capacity invariant fails as stated.  A single
`put` whose estimated item size (1024 x 1024 x 2 = 2097152 bytes) exceeds a
1 MB capacity runs the eviction loop to exhaustion (the cache is empty) and
then inserts anyway, leaving `current_size` above `max_size_bytes`. -/
theorem c1_capacity_counterexample :
    ((ImageCache.init 1).put 0 "src" "op" [] "r"
        (some ⟨1024, 1024, 2⟩)).max_size_bytes <
      ((ImageCache.init 1).put 0 "src" "op" [] "r"
        (some ⟨1024, 1024, 2⟩)).current_size := by
  decide

/-- C1 (amended): over any sequence of `put` calls in which each inserted
fingerprint is fresh (no overwrite) and each item's estimated size is at
most the capacity, `current_size` equals the sum of the recorded entry
sizes and never exceeds the capacity; moreover `_cleanup_cache` always
removes a leading segment of the key list ordered by least-recent access
time (so eviction proceeds strictly from the least-recently-accessed
entry), and that order is genuinely sorted by access timestamp. -/
theorem c1_capacity_amended {max_size_mb : ℕ} {c : ImageCache}
    (h : ReachableFresh max_size_mb c) :
    (entrySizeSum c.cache = c.current_size ∧
      c.current_size ≤ c.max_size_bytes) ∧
    (∀ (d : ImageCache) (req : ℤ), ∃ m,
      d.cleanup_cache req = evictList (d.lruKeys.take m) d) ∧
    (∀ d : ImageCache, List.Sorted timeLE d.sortedAccess) := by
  refine ⟨⟨(reachableFresh_inv h).1.1, (reachableFresh_inv h).2⟩, ?_, ?_⟩
  · intro d req
    unfold ImageCache.cleanup_cache
    split
    · exact ⟨0, rfl⟩
    · exact cleanupLoop_evictList req d.lruKeys d
  · intro d
    exact List.sorted_insertionSort timeLE d.access_times

/-- Witness for C1 (amended) at the concrete state reached by one fresh
`put` of a 2-byte entry into a fresh 1 MB cache. -/
theorem c1_capacity_amended_witness :
    (entrySizeSum ((ImageCache.init 1).put 0 "s" "o" [] "ab" none).cache =
        ((ImageCache.init 1).put 0 "s" "o" [] "ab" none).current_size ∧
      ((ImageCache.init 1).put 0 "s" "o" [] "ab" none).current_size ≤
        ((ImageCache.init 1).put 0 "s" "o" [] "ab" none).max_size_bytes) ∧
    (∀ (d : ImageCache) (req : ℤ), ∃ m,
      d.cleanup_cache req = evictList (d.lruKeys.take m) d) ∧
    (∀ d : ImageCache, List.Sorted timeLE d.sortedAccess) :=
  c1_capacity_amended
    (ReachableFresh.put 0 "s" "o" [] "ab" none ReachableFresh.init
      (by decide) (by decide))

/-- C2, failing input: two `put` calls with the identical fingerprint
(source "s", operation "o", empty params) and a 2-byte result leave
`current_size = 4` while the single stored entry records size 2 — the
overwritten entry's size is never subtracted (src/utils/performance.py
lines 147-153), so `currentSize` does not equal the sum of the recorded
entry sizes. -/
theorem c2_overwrite_double_count :
    (((ImageCache.init 1).put 0 "s" "o" [] "ab" none).put 1 "s" "o" []
        "ab" none).current_size = 4 ∧
    entrySizeSum (((ImageCache.init 1).put 0 "s" "o" [] "ab" none).put 1
        "s" "o" [] "ab" none).cache = 2 ∧
    (((ImageCache.init 1).put 0 "s" "o" [] "ab" none).put 1 "s" "o" []
        "ab" none).cache.length = 1 := by
  decide

/-- C3: on an enabled cache, a `get` with the same (source, operation,
params) directly following a `put` returns exactly the stored payload;
`get` never alters the stored entries (so every later identical `get`
keeps returning it); and the cache fingerprint is invariant under
permutation of the params dict entries (whose keys are duplicate-free). -/
theorem c3_fingerprint_determinism {c : ImageCache} (hen : c.enabled = true)
    (now now' : ℕ) (src op : String) (params : Params) (result : String)
    (img : Option ImgMeta) :
    ((c.put now src op params result img).get now' src op params).1 =
      some result ∧
    (∀ (d : ImageCache) (n : ℕ) (s o : String) (p : Params),
      ((d.get n s o p).2).cache = d.cache) ∧
    (∀ (s o : String) (p₁ p₂ : Params), p₁.Perm p₂ →
      (p₁.map Prod.fst).Nodup →
      ImageCache.get_cache_key s o p₁ = ImageCache.get_cache_key s o p₂) :=
  ⟨put_get_same hen now now' src op params result img,
    fun d n s o p => get_cache_unchanged d n s o p,
    fun _ _ _ _ hperm hnd => get_cache_key_perm _ _ hperm hnd⟩

/-- Witness for C3 on a fresh enabled cache and a concrete request. -/
theorem c3_fingerprint_determinism_witness :
    (((ImageCache.init 1).put 0 "a" "resize" [("width", "100")] "r"
        none).get 1 "a" "resize" [("width", "100")]).1 = some "r" :=
  (c3_fingerprint_determinism rfl 0 1 "a" "resize" [("width", "100")] "r"
    none).1

/-- C4, failing input: a 2-item batch where item 0 succeeds and item 1
fails.  The successful item's value is the dict returned by
`output_image`, so `result.startswith("ERROR:")` (src/tools/advanced.py
line 391) raises `AttributeError`, the whole request falls into the outer
`except Exception` handler, and the caller receives a single failure
envelope with no per-item results — not a length-2 result list. -/
theorem c4_batch_abort_on_success :
    (batch_resize ["a.png", "bad.png"] (fun s =>
        if s = "bad.png" then ItemOutcome.err "无效的图片源: bad.png"
        else ItemOutcome.ok ⟨"/tmp/out.png", 10, "PNG"⟩)).1.success = false ∧
    (batch_resize ["a.png", "bad.png"] (fun s =>
        if s = "bad.png" then ItemOutcome.err "无效的图片源: bad.png"
        else ItemOutcome.ok ⟨"/tmp/out.png", 10, "PNG"⟩)).1.results = [] ∧
    (batch_resize ["a.png", "bad.png"] (fun s =>
        if s = "bad.png" then ItemOutcome.err "无效的图片源: bad.png"
        else ItemOutcome.ok ⟨"/tmp/out.png", 10, "PNG"⟩)).1.error =
      some "批量调整失败: AttributeError: dict object has no attribute startswith" := by
  decide

/-- C5: in every state reachable under any interleaving of
`acquire_task_slot` and `release_task_slot`, the active task count never
exceeds the configured maximum, which is the default 4. -/
theorem c5_admission_bound {s : ResourceManager} (h : RMReachable s) :
    s.active_tasks ≤ s.max_tasks ∧ s.max_tasks = MAX_CONCURRENT_TASKS := by
  obtain ⟨hsum, _, hsem, hmax⟩ := rm_invariant h
  exact ⟨by linarith, hmax⟩

/-- Witness for C5 at the initial admission state. -/
theorem c5_admission_bound_witness :
    RMReachable ResourceManager.init ∧
      ResourceManager.init.active_tasks ≤ ResourceManager.init.max_tasks :=
  ⟨RMReachable.init, (c5_admission_bound RMReachable.init).1⟩

/-- C6, counterexample: after the three recorded operations the cache-hit
rate computed by `get_stats` is 1/3 (one hit, two misses), not
approximately 0.5 as the claim states; it differs from 0.5 by 1/6. -/
theorem c6_hit_rate_counterexample :
    (recordedMonitor.get_stats 1).cache_hit_rate = 1 / 3 ∧
      ¬ |(recordedMonitor.get_stats 1).cache_hit_rate - 1 / 2| ≤ 1 / 20 := by
  norm_num [recordedMonitor, PerformanceMonitor.record_operation,
    PerformanceMonitor.init, PerformanceMonitor.get_stats, abs_le]

/-- C6 (amended): recording the three operations yields
`total_operations = 3`, `average_processing_time = 0.15`,
`cache_hit_rate = 1/3` (approximately 0.333) and `error_rate = 1/3`. -/
theorem c6_metrics_amended :
    (recordedMonitor.get_stats 1).total_operations = 3 ∧
    (recordedMonitor.get_stats 1).average_processing_time = 3 / 20 ∧
    (recordedMonitor.get_stats 1).cache_hit_rate = 1 / 3 ∧
    (recordedMonitor.get_stats 1).error_rate = 1 / 3 := by
  refine ⟨rfl, ?_, ?_, ?_⟩ <;>
    norm_num [recordedMonitor, PerformanceMonitor.record_operation,
      PerformanceMonitor.init, PerformanceMonitor.get_stats]

/-- C7: with no operations recorded, `get_stats` reports 0 for average
processing time, cache-hit rate and error rate; and for every monitor
state and uptime the guarded divisors `max(..., 1)` are strictly positive,
so no division by zero can occur anywhere in `get_stats`. -/
theorem c7_zero_division_guard (m : PerformanceMonitor) (u : ℚ) :
    ((PerformanceMonitor.init.get_stats u).average_processing_time = 0 ∧
      (PerformanceMonitor.init.get_stats u).cache_hit_rate = 0 ∧
      (PerformanceMonitor.init.get_stats u).error_rate = 0) ∧
    (0 < max ((m.total_operations : ℚ)) 1 ∧
      0 < max ((m.cache_hits : ℚ) + (m.cache_misses : ℚ)) 1 ∧
      0 < max ((m.memory_usage.length : ℚ)) 1 ∧
      0 < max u 1) := by
  refine ⟨⟨?_, ?_, ?_⟩, ?_, ?_, ?_, ?_⟩
  · simp [PerformanceMonitor.init, PerformanceMonitor.get_stats]
  · simp [PerformanceMonitor.init, PerformanceMonitor.get_stats]
  · simp [PerformanceMonitor.init, PerformanceMonitor.get_stats]
  · exact lt_max_of_lt_right one_pos
  · exact lt_max_of_lt_right one_pos
  · exact lt_max_of_lt_right one_pos
  · exact lt_max_of_lt_right one_pos

/-- C8, failing input: `add_watermark` with opacity 1.5 (outside [0, 1])
and in-range scale 0.2.  `validate_numeric_range` correctly reports the
value out of range, but its boolean result is discarded at
src/tools/effects.py lines 660-661, so the validation phase completes
without error and no failure envelope naming "opacity" is produced —
processing proceeds with the out-of-range value. -/
theorem c8_range_check_discarded :
    validate_numeric_range (some (3 / 2)) 0 1 (some "opacity") = false ∧
    add_watermark_validation true true (3 / 2) (1 / 5) = Except.ok () ∧
    add_watermark_validation_envelope true true (3 / 2) (1 / 5) = none := by
  refine ⟨?_, rfl, rfl⟩
  norm_num [validate_numeric_range]

/-- C9: a batch with an empty `image_sources` list yields the validation
failure envelope (success false, error naming the empty list) and submits
zero tasks to the executor, for every possible per-item behavior. -/
theorem c9_empty_batch_rejection (ex : String → ItemOutcome) :
    batch_resize [] ex =
      (⟨false, some "参数验证失败: image_sources不能为空", []⟩, 0) := rfl

/-- C10: `release_task_slot` with no slot held leaves the state (both the
counter and the semaphore) unchanged, and consequently the active count is
nonnegative in every reachable admission state. -/
theorem c10_release_underflow_safe :
    (∀ s : ResourceManager, s.active_tasks = 0 → s.release_task_slot = s) ∧
    (∀ s : ResourceManager, RMReachable s → 0 ≤ s.active_tasks) := by
  constructor
  · intro s h
    unfold ResourceManager.release_task_slot
    rw [h]
    simp
  · intro s h
    exact (rm_invariant h).2.1

/-- Witness for C10 at the initial admission state. -/
theorem c10_release_underflow_safe_witness :
    ResourceManager.init.release_task_slot = ResourceManager.init ∧
      (0 : ℤ) ≤ ResourceManager.init.active_tasks :=
  ⟨c10_release_underflow_safe.1 ResourceManager.init rfl,
    c10_release_underflow_safe.2 ResourceManager.init RMReachable.init⟩
